import Mathlib

/-!
# Verification of the PLVS `PointCloudMap` map store

Shallow embedding of `src/include/PointCloudMap.h` (template class
`PLVS::PointCloudMap<PointT>`): the concurrent volumetric map store of the
PLVS reconstruction pipeline.  Point coordinates are modelled as rationals,
the PCL header stamp as a natural number, and the point-cloud smart pointers
(`PointCloudT::Ptr`) as `Option PointCloudT` (`none` is the null pointer).
The timed lock's outcome is passed as an explicit boolean (`ownsLock`):
`true` models `lck.owns_lock()` succeeding within the timeout, `false` the
timeout branch.  Method bodies that live in the header are translated
directly; bodies that are only declared in the header are modelled from the
design document and carry a `Modelled from the spec:` doc comment.
-/

namespace PLVS

/-- A PCL point: 3D position with rational coordinates.  Color / normal /
label attributes play no role in the verified properties and are omitted. -/
structure PointT where
  x : ℚ
  y : ℚ
  z : ℚ
deriving DecidableEq

instance : Inhabited PointT := ⟨⟨0, 0, 0⟩⟩

/-- The PCL cloud header; `stamp` is the `pcl::uint64_t` timestamp read by
`PointCloudMap::GetMapTimestamp` (`pPointCloud_->header.stamp`). -/
structure PCLHeader where
  stamp : Nat
deriving DecidableEq

/-- `pcl::PointCloud<PointT>`: a header plus the stored points. -/
structure PointCloudT where
  header : PCLHeader
  points : List PointT
deriving DecidableEq

/-- `pcl::PointCloud::makeShared()`: allocates an independent deep copy of
the cloud.  At the value level the copy has exactly the contents of the
original; the allocation aspect is modelled separately in `HeapState`. -/
def makeShared (c : PointCloudT) : PointCloudT := c

/-- An empty cloud with zero stamp. -/
def emptyCloud : PointCloudT := { header := { stamp := 0 }, points := [] }

/-- The state of `PLVS::PointCloudMap<PointT>` (protected fields of
`PointCloudMap.h:184-203`).  The `recursive_timed_mutex` itself has no
value-level content; lock outcomes are explicit arguments of the timed
getters. -/
structure PointCloudMap where
  resolution_ : ℚ
  bResetOnSparseMapChange_ : Bool
  bCloudDeformationOnSparseMapChange_ : Bool
  pPointCloud_ : Option PointCloudT
  pPointCloudUnstable_ : Option PointCloudT
  lastTimestamp_ : Nat
  nDownsampleStep_ : Int
  bMapUpdated_ : Bool
  bRemoveUnstablePoints_ : Bool
  bPerformSegmentation_ : Bool
  bPerformCarving_ : Bool
  minCosForNormalAssociation_ : ℚ
deriving DecidableEq

/-- `PointCloudMap::GetMap` (PointCloudMap.h:111-115): under the lock,
`return (pPointCloud_ ? pPointCloud_->makeShared() : 0)`. -/
def GetMap (s : PointCloudMap) : Option PointCloudT :=
  s.pPointCloud_.map makeShared

/-- `PointCloudMap::GetMapWithTimeout` (single-output overload,
PointCloudMap.h:117-128): if the timed lock is owned, behave as `GetMap`,
otherwise `return 0`. -/
def GetMapWithTimeout1 (s : PointCloudMap) (ownsLock : Bool) : Option PointCloudT :=
  if ownsLock then s.pPointCloud_.map makeShared else none

/-- The three outputs of the by-reference overload of `GetMapWithTimeout`:
`pCloud`, `pCloudUnstable` and the `faces` vector. -/
structure GetMapOutputs where
  pCloud : Option PointCloudT
  pCloudUnstable : Option PointCloudT
  faces : List Nat
deriving DecidableEq

/-- `PointCloudMap::GetMapWithTimeout` (three-output overload,
PointCloudMap.h:130-155).  `pCloudUnstableIn` is the value held by the
caller's `pCloudUnstable` reference on entry: on the success path it is
overwritten only when `copyUnstable` is set.  `faces.clear()` runs on both
paths (the assignment `faces = faces_` is commented out in the source).
The second component of the result is the state of the object after the
call; no branch writes any member, so it is `s` on both paths. -/
def GetMapWithTimeout3 (s : PointCloudMap) (ownsLock : Bool)
    (pCloudUnstableIn : Option PointCloudT) (copyUnstable : Bool) :
    GetMapOutputs × PointCloudMap :=
  if ownsLock then
    ({ pCloud := s.pPointCloud_.map makeShared
       pCloudUnstable :=
         if copyUnstable then s.pPointCloudUnstable_.map makeShared
         else pCloudUnstableIn
       faces := [] }, s)
  else
    ({ pCloud := none, pCloudUnstable := none, faces := [] }, s)

/-- `PointCloudMap::GetMapTimestamp` (PointCloudMap.h:157-161): returns
`pPointCloud_->header.stamp` with no null check; `none` models the
dereference of a null `pPointCloud_` (undefined behaviour in C++). -/
def GetMapTimestamp (s : PointCloudMap) : Option Nat :=
  s.pPointCloud_.map fun c => c.header.stamp

/-- `PointCloudMap::SetRemoveUnstablePoints` (PointCloudMap.h:169). -/
def SetRemoveUnstablePoints (s : PointCloudMap) (val : Bool) : PointCloudMap :=
  { s with bRemoveUnstablePoints_ := val }

/-- `PointCloudMap::SetPerformSegmentation` (PointCloudMap.h:170). -/
def SetPerformSegmentation (s : PointCloudMap) (val : Bool) : PointCloudMap :=
  { s with bPerformSegmentation_ := val }

/-- `PointCloudMap::SetPerformCarving` (PointCloudMap.h:171). -/
def SetPerformCarving (s : PointCloudMap) (val : Bool) : PointCloudMap :=
  { s with bPerformCarving_ := val }

/-- `PointCloudMap::SetDownsampleStep` (PointCloudMap.h:172): stores the
argument with no validation. -/
def SetDownsampleStep (s : PointCloudMap) (val : Int) : PointCloudMap :=
  { s with nDownsampleStep_ := val }

/-- `PointCloudMap::SetResetOnMapChange` (PointCloudMap.h:174): writes
`bResetOnSparseMapChange_` only. -/
def SetResetOnMapChange (s : PointCloudMap) (val : Bool) : PointCloudMap :=
  { s with bResetOnSparseMapChange_ := val }

/-- `PointCloudMap::SetKfAdjustmentOnMapChange` (PointCloudMap.h:175):
writes `bCloudDeformationOnSparseMapChange_` only. -/
def SetKfAdjustmentOnMapChange (s : PointCloudMap) (val : Bool) : PointCloudMap :=
  { s with bCloudDeformationOnSparseMapChange_ := val }

/-- `PointCloudMap::SetMinCosForNormalAssociation` (PointCloudMap.h:177). -/
def SetMinCosForNormalAssociation (s : PointCloudMap) (val : ℚ) : PointCloudMap :=
  { s with minCosForNormalAssociation_ := val }

/-- Modelled from the spec: the body of the constructor
`PointCloudMap::PointCloudMap` (declared at PointCloudMap.h:89) is not under
src/.  Per the design document the Map Store "owns the authoritative point
cloud (stable + unstable partitions)" in every state, so construction
allocates both clouds empty; the timestamp starts at zero, the policy flags
start disabled, and `DownsampleStep` starts at its documented minimum 1. -/
def initState (resolution_in : ℚ) : PointCloudMap :=
  { resolution_ := resolution_in
    bResetOnSparseMapChange_ := false
    bCloudDeformationOnSparseMapChange_ := false
    pPointCloud_ := some emptyCloud
    pPointCloudUnstable_ := some emptyCloud
    lastTimestamp_ := 0
    nDownsampleStep_ := 1
    bMapUpdated_ := false
    bRemoveUnstablePoints_ := false
    bPerformSegmentation_ := false
    bPerformCarving_ := false
    minCosForNormalAssociation_ := 0 }

/-- Modelled from the spec: the body of `PointCloudMap::ResetPointCloud`
(declared at PointCloudMap.h:179; `Clear` at PointCloudMap.h:100 performs
the same reset) is not under src/.  The design document states: "reset():
clears both clouds and resets timestamp".  Both clouds are cleared in
place (they stay allocated) and both the map-level stamp and the
last-received-data timestamp return to zero. -/
def ResetPointCloud (s : PointCloudMap) : PointCloudMap :=
  { s with
    pPointCloud_ := some emptyCloud
    pPointCloudUnstable_ := some emptyCloud
    lastTimestamp_ := 0 }

/-- Modelled from the spec: the bodies of `InsertData`, `UpdateMap` and
`UpdateMapTimestamp` (declared at PointCloudMap.h:94-98) are not under
src/.  The design document's ingestion algorithm: a frame whose sensor
timestamp is not newer than the last accepted timestamp is rejected
(dropped silently); an accepted frame's points are merged into the
unstable cloud by default and the Map Store timestamp is updated to the
frame's timestamp.  Returns the new state and whether the frame was
accepted. -/
def InsertFrame (s : PointCloudMap) (pts : List PointT) (ts : Nat) :
    PointCloudMap × Bool :=
  if s.lastTimestamp_ < ts then
    ({ s with
        lastTimestamp_ := ts
        bMapUpdated_ := true
        pPointCloud_ := s.pPointCloud_.map fun c => { c with header := { stamp := ts } }
        pPointCloudUnstable_ := some
          { header := { stamp := ts }
            points := ((s.pPointCloudUnstable_.map PointCloudT.points).getD []) ++ pts } },
      true)
  else
    (s, false)

/-- Modelled from the spec: the bodies of `SaveMap` and `WritePLY`
(declared at PointCloudMap.h:104 and 207) are not under src/ and the PLY
codec is an external collaborator.  `saveMap` serializes the current
stable cloud; the file contents are modelled as the list of stored
points. -/
def SaveMap (s : PointCloudMap) : List PointT :=
  (s.pPointCloud_.map PointCloudT.points).getD []

/-- Modelled from the spec: the body of `LoadMap` (declared at
PointCloudMap.h:107) is not under src/.  The design document: "loadMap
(path) -> success: replaces MapCloud with file contents".  The file is the
already-decoded point list (codec external); decode failures are outside
this model, so the load succeeds and replaces the stable cloud. -/
def LoadMap (s : PointCloudMap) (file : List PointT) : PointCloudMap × Bool :=
  ({ s with pPointCloud_ := some { header := { stamp := s.lastTimestamp_ }, points := file } },
    true)

/-- One configuration-setter call, dispatching to the corresponding inline
setter of PointCloudMap.h:169-177. -/
inductive CfgCall where
  | setRemoveUnstablePoints (val : Bool)
  | setPerformSegmentation (val : Bool)
  | setPerformCarving (val : Bool)
  | setDownsampleStep (val : Int)
  | setResetOnMapChange (val : Bool)
  | setKfAdjustmentOnMapChange (val : Bool)
  | setMinCosForNormalAssociation (val : ℚ)
deriving DecidableEq

/-- Executes one configuration-setter call. -/
def applyCfg (s : PointCloudMap) : CfgCall → PointCloudMap
  | .setRemoveUnstablePoints v => SetRemoveUnstablePoints s v
  | .setPerformSegmentation v => SetPerformSegmentation s v
  | .setPerformCarving v => SetPerformCarving s v
  | .setDownsampleStep v => SetDownsampleStep s v
  | .setResetOnMapChange v => SetResetOnMapChange s v
  | .setKfAdjustmentOnMapChange v => SetKfAdjustmentOnMapChange s v
  | .setMinCosForNormalAssociation v => SetMinCosForNormalAssociation s v

/-- Executes a sequence of configuration-setter calls, left to right. -/
def runCfg (s : PointCloudMap) : List CfgCall → PointCloudMap
  | [] => s
  | c :: cs => runCfg (applyCfg s c) cs

/-- The states of the Map Store reachable from construction through its
public operations (setters, ingestion, reset, load; the getters do not
write any member). -/
inductive Reachable : PointCloudMap → Prop where
  | init (r : ℚ) : Reachable (initState r)
  | cfg {s : PointCloudMap} (c : CfgCall) : Reachable s → Reachable (applyCfg s c)
  | insert {s : PointCloudMap} (pts : List PointT) (ts : Nat) :
      Reachable s → Reachable (InsertFrame s pts ts).1
  | reset {s : PointCloudMap} : Reachable s → Reachable (ResetPointCloud s)
  | load {s : PointCloudMap} (file : List PointT) :
      Reachable s → Reachable (LoadMap s file).1

/-- Timestamps of the Map Store along a run of `InsertFrame` calls,
starting with the timestamp of the initial state (one entry per prefix of
the frame sequence). -/
def stampTrace (s : PointCloudMap) : List (List PointT × Nat) → List Nat
  | [] => [s.lastTimestamp_]
  | f :: fs => s.lastTimestamp_ :: stampTrace (InsertFrame s f.1 f.2).1 fs

/-- Heap-level model of the cloud smart pointers, used to state snapshot
isolation: `heap` maps addresses to allocated clouds, `next` is the next
fresh address, and `mapAddr` is the address held by the `pPointCloud_`
pointer of the live store.  `makeShared` allocates its copy at a fresh
address, so a snapshot and the live cloud never share storage. -/
structure HeapState where
  heap : Nat → Option PointCloudT
  next : Nat
  mapAddr : Nat

/-- `GetMap` (and the lock-owning path of `GetMapWithTimeout`) at the heap
level: `pPointCloud_ ? pPointCloud_->makeShared() : 0`, where the deep copy
is placed at the fresh address `next`. -/
def GetMapH (h : HeapState) : Option Nat × HeapState :=
  match h.heap h.mapAddr with
  | some c =>
    (some h.next,
      { heap := fun a => if a = h.next then some (makeShared c) else h.heap a
        next := h.next + 1
        mapAddr := h.mapAddr })
  | none => (none, h)

/-- `GetMapWithTimeout` at the heap level: the lock-owning branch is
exactly `GetMapH`, the timeout branch returns null and allocates nothing. -/
def GetMapWithTimeoutH (h : HeapState) (ownsLock : Bool) : Option Nat × HeapState :=
  if ownsLock then GetMapH h else (none, h)

/-- A mutation of the live Map Store: an accepted merge appends the frame's
points into the stored cloud and restamps it; `clear` (the body of
`Clear` / `ResetPointCloud`, modelled from the spec's "clears both clouds
and resets timestamp") empties it in place.  Every mutation writes through
`mapAddr` only. -/
inductive MapMutation where
  | merge (pts : List PointT) (ts : Nat)
  | clear
  | reset
deriving DecidableEq

/-- Executes one Map Store mutation on the heap. -/
def applyMutation (h : HeapState) : MapMutation → HeapState
  | .merge pts ts =>
    { h with heap := fun a =>
        if a = h.mapAddr then
          (h.heap h.mapAddr).map fun c =>
            { header := { stamp := ts }, points := c.points ++ pts }
        else h.heap a }
  | .clear =>
    { h with heap := fun a => if a = h.mapAddr then some emptyCloud else h.heap a }
  | .reset =>
    { h with heap := fun a => if a = h.mapAddr then some emptyCloud else h.heap a }

/-- Executes a sequence of Map Store mutations, left to right. -/
def applyMutations (h : HeapState) : List MapMutation → HeapState
  | [] => h
  | m :: ms => applyMutations (applyMutation h m) ms

/-- A map state whose stable-cloud pointer is null, as the guarded getters
`pPointCloud_ ? ... : 0` anticipate. -/
def nullPtrState : PointCloudMap :=
  { initState 1 with pPointCloud_ := none }

/-- A concrete one-point cloud used to instantiate the theorems below. -/
def sampleCloud : PointCloudT :=
  { header := { stamp := 3 }, points := [⟨1, 2, 3⟩] }

/-- A concrete map state holding `sampleCloud`. -/
def sampleMapState : PointCloudMap :=
  { initState 1 with pPointCloud_ := some sampleCloud }

/-- A concrete heap: the live cloud `sampleCloud` lives at address 0 and
address 1 is the next fresh address. -/
def sampleHeap : HeapState :=
  { heap := fun a => if a = 0 then some sampleCloud else none
    next := 1
    mapAddr := 0 }

/- ## Helper lemmas -/

lemma stampTrace_head (s : PointCloudMap) (fs : List (List PointT × Nat)) :
    (stampTrace s fs).head? = some s.lastTimestamp_ := by
  cases fs <;> rfl

lemma insertFrame_ts_mono (s : PointCloudMap) (pts : List PointT) (ts : Nat) :
    s.lastTimestamp_ ≤ ((InsertFrame s pts ts).1).lastTimestamp_ := by
  by_cases hlt : s.lastTimestamp_ < ts
  · simp only [InsertFrame, if_pos hlt]
    exact Nat.le_of_lt hlt
  · simp only [InsertFrame, if_neg hlt]
    exact Nat.le_refl _

lemma reachable_isSome {s : PointCloudMap} (h : Reachable s) :
    s.pPointCloud_.isSome = true := by
  induction h with
  | init r => rfl
  | cfg c _ ih => cases c <;> exact ih
  | insert pts ts _ ih =>
    rename_i t _
    by_cases hlt : t.lastTimestamp_ < ts
    · simp only [InsertFrame, if_pos hlt]
      simpa using ih
    · simp only [InsertFrame, if_neg hlt]
      exact ih
  | reset _ _ => rfl
  | load file _ _ => rfl

lemma runCfg_kf_flag_false (cs : List CfgCall) : ∀ s : PointCloudMap,
    s.bCloudDeformationOnSparseMapChange_ = false →
    CfgCall.setKfAdjustmentOnMapChange true ∉ cs →
    (runCfg s cs).bCloudDeformationOnSparseMapChange_ = false := by
  induction cs with
  | nil => intro s h1 _; exact h1
  | cons c cs ih =>
    intro s h1 h2
    rw [runCfg]
    refine ih _ ?_ (fun hmem => h2 (List.mem_cons_of_mem _ hmem))
    cases c with
    | setRemoveUnstablePoints v => exact h1
    | setPerformSegmentation v => exact h1
    | setPerformCarving v => exact h1
    | setDownsampleStep v => exact h1
    | setResetOnMapChange v => exact h1
    | setKfAdjustmentOnMapChange v =>
      cases v with
      | false => rfl
      | true => exact absurd (List.mem_cons_self _ _) h2
    | setMinCosForNormalAssociation v => exact h1

lemma applyMutation_mapAddr (h : HeapState) (m : MapMutation) :
    (applyMutation h m).mapAddr = h.mapAddr := by
  cases m <;> rfl

lemma applyMutation_heap_ne (h : HeapState) (m : MapMutation) (a : Nat)
    (ha : a ≠ h.mapAddr) : (applyMutation h m).heap a = h.heap a := by
  cases m <;> simp [applyMutation, ha]

lemma applyMutations_heap_ne (ms : List MapMutation) : ∀ (h : HeapState) (a : Nat),
    a ≠ h.mapAddr → (applyMutations h ms).heap a = h.heap a := by
  induction ms with
  | nil => intro h a _; rfl
  | cons m ms ih =>
    intro h a ha
    rw [applyMutations]
    rw [ih _ a (by rw [applyMutation_mapAddr]; exact ha)]
    exact applyMutation_heap_ne h m a ha

/- ## Claims -/

/-- Claim C1: when the timed lock is not acquired within the timeout, the
three-output `GetMapWithTimeout` returns null `pCloud`, null
`pCloudUnstable` and empty `faces`, and leaves the stored map unchanged;
the single-output overload likewise returns null. -/
theorem getMapWithTimeout_timeout_null_outputs (s : PointCloudMap)
    (pCloudUnstableIn : Option PointCloudT) (copyUnstable : Bool) :
    GetMapWithTimeout3 s false pCloudUnstableIn copyUnstable =
      ({ pCloud := none, pCloudUnstable := none, faces := [] }, s) ∧
    GetMapWithTimeout1 s false = none :=
  ⟨rfl, rfl⟩

/-- Claim C9: on every call to the three-output `GetMapWithTimeout`,
whether the lock is acquired or not, the `faces` output vector is cleared
and returned empty (the assignment `faces = faces_` is commented out in
the source). -/
theorem getMapWithTimeout_faces_always_empty (s : PointCloudMap) (ownsLock : Bool)
    (pCloudUnstableIn : Option PointCloudT) (copyUnstable : Bool) :
    (GetMapWithTimeout3 s ownsLock pCloudUnstableIn copyUnstable).1.faces = [] := by
  cases ownsLock <;> rfl

/-- Claim C6: reset is idempotent — calling `ResetPointCloud` twice in a
row produces exactly the state of calling it once, namely both clouds
cleared and the timestamp reset to zero. -/
theorem resetPointCloud_idempotent (s : PointCloudMap) :
    ResetPointCloud (ResetPointCloud s) = ResetPointCloud s ∧
    (ResetPointCloud s).pPointCloud_ = some emptyCloud ∧
    (ResetPointCloud s).pPointCloudUnstable_ = some emptyCloud ∧
    (ResetPointCloud s).lastTimestamp_ = 0 :=
  ⟨rfl, rfl, rfl, rfl⟩

/-- Claim C10: when the stable-cloud pointer is null, `GetMap` and the
lock-owning path of `GetMapWithTimeout` return a null pointer, which is
exactly what the timeout path of `GetMapWithTimeout` returns on any state:
a null result does not distinguish a lock timeout from an unallocated
map. -/
theorem getMap_null_not_distinguishing (s t : PointCloudMap)
    (h : s.pPointCloud_ = none) :
    GetMap s = none ∧ GetMapWithTimeout1 s true = none ∧
    GetMapWithTimeout1 t false = GetMapWithTimeout1 s true := by
  refine ⟨?_, ?_, ?_⟩ <;> simp [GetMap, GetMapWithTimeout1, h]

theorem getMap_null_not_distinguishing_witness :
    GetMap nullPtrState = none ∧ GetMapWithTimeout1 nullPtrState true = none ∧
    GetMapWithTimeout1 (initState 1) false = GetMapWithTimeout1 nullPtrState true :=
  getMap_null_not_distinguishing nullPtrState (initState 1) rfl

/-- Claim C3: along every run of merges, the Map Store timestamp never
decreases — the trace of timestamps is a `≤`-chain, so every consecutive
pair of accepted merges satisfies `timestamp(n+1) ≥ timestamp(n)`
(a rejected frame leaves the timestamp unchanged). -/
theorem mapTimestamp_monotone (s : PointCloudMap)
    (fs : List (List PointT × Nat)) :
    List.Chain' (· ≤ ·) (stampTrace s fs) := by
  induction fs generalizing s with
  | nil => simp [stampTrace]
  | cons f fs ih =>
    rw [stampTrace, List.chain'_cons']
    refine ⟨?_, ih _⟩
    intro b hb
    rw [stampTrace_head] at hb
    simp only [Option.mem_def, Option.some_inj] at hb
    subst hb
    exact insertFrame_ts_mono s f.1 f.2

/-- Claim C4: in every reachable state of the Map Store — the initial
state, after any setter calls, merges, resets and loads — the stable cloud
is allocated, so `GetMapTimestamp`'s unguarded dereference of
`pPointCloud_` is safe and the call returns the map-level timestamp. -/
theorem getMapTimestamp_safe {s : PointCloudMap} (h : Reachable s) :
    (GetMapTimestamp s).isSome = true := by
  have hs := reachable_isSome h
  unfold GetMapTimestamp
  simpa using hs

theorem getMapTimestamp_safe_witness :
    (GetMapTimestamp (initState 1)).isSome = true :=
  getMapTimestamp_safe (Reachable.init 1)

/-- Claim C5, counterexample: the setter pair enforces nothing — the
two-call sequence `SetResetOnMapChange(true); SetKfAdjustmentOnMapChange
(true)` reaches a configuration state with both on-map-change policy flags
simultaneously enabled, refuting the claimed invariant. -/
theorem onMapChange_flags_counterexample :
    (runCfg (initState 1) [CfgCall.setResetOnMapChange true,
        CfgCall.setKfAdjustmentOnMapChange true]).bResetOnSparseMapChange_ = true ∧
    (runCfg (initState 1) [CfgCall.setResetOnMapChange true,
        CfgCall.setKfAdjustmentOnMapChange true]).bCloudDeformationOnSparseMapChange_
        = true :=
  ⟨rfl, rfl⟩

/-- Claim C5, amended: each on-map-change setter writes only its own flag,
so mutual exclusion is the caller's obligation; whenever the deformation
flag starts disabled and no call in the sequence enables it, the two flags
are never simultaneously enabled at the end of the sequence. -/
theorem onMapChange_flags_not_both (cs : List CfgCall) : ∀ s : PointCloudMap,
    s.bCloudDeformationOnSparseMapChange_ = false →
    CfgCall.setKfAdjustmentOnMapChange true ∉ cs →
    ¬((runCfg s cs).bResetOnSparseMapChange_ = true ∧
      (runCfg s cs).bCloudDeformationOnSparseMapChange_ = true) := by
  intro s h1 h2 hboth
  have hfalse := runCfg_kf_flag_false cs s h1 h2
  rw [hfalse] at hboth
  exact absurd hboth.2 (by decide)

theorem onMapChange_flags_not_both_witness :
    ¬((runCfg (initState 1)
          [CfgCall.setResetOnMapChange true]).bResetOnSparseMapChange_ = true ∧
      (runCfg (initState 1)
          [CfgCall.setResetOnMapChange true]).bCloudDeformationOnSparseMapChange_
          = true) :=
  onMapChange_flags_not_both [CfgCall.setResetOnMapChange true] (initState 1)
    rfl (by decide)

/-- Claim C8, counterexample: `SetDownsampleStep` stores its argument with
no validation, so the single call `SetDownsampleStep(0)` reaches a
configuration state whose downsample step is 0 < 1, refuting the claimed
invariant for arbitrary int arguments. -/
theorem downsampleStep_counterexample :
    (runCfg (initState 1) [CfgCall.setDownsampleStep 0]).nDownsampleStep_ < 1 := by
  decide

/-- Claim C8, amended: the stored downsample step satisfies
`DownsampleStep ≥ 1` after every sequence of `SetDownsampleStep` calls
provided the initial value is at least 1 and every call passes an argument
at least 1; the setter itself performs no clamping. -/
theorem downsampleStep_ge_one_of_valid_calls (cs : List CfgCall) :
    ∀ s : PointCloudMap, 1 ≤ s.nDownsampleStep_ →
    (∀ v : Int, CfgCall.setDownsampleStep v ∈ cs → 1 ≤ v) →
    1 ≤ (runCfg s cs).nDownsampleStep_ := by
  induction cs with
  | nil => intro s h1 _; exact h1
  | cons c cs ih =>
    intro s h1 h2
    rw [runCfg]
    refine ih _ ?_ (fun v hv => h2 v (List.mem_cons_of_mem _ hv))
    cases c with
    | setRemoveUnstablePoints v => exact h1
    | setPerformSegmentation v => exact h1
    | setPerformCarving v => exact h1
    | setDownsampleStep v => exact h2 v (List.mem_cons_self _ _)
    | setResetOnMapChange v => exact h1
    | setKfAdjustmentOnMapChange v => exact h1
    | setMinCosForNormalAssociation v => exact h1

theorem downsampleStep_ge_one_witness :
    1 ≤ (runCfg (initState 1) [CfgCall.setDownsampleStep 3]).nDownsampleStep_ :=
  downsampleStep_ge_one_of_valid_calls [CfgCall.setDownsampleStep 3] (initState 1)
    (by decide)
    (by intro v hv; simp only [List.mem_singleton] at hv; injection hv with h; omega)

/-- Claim C2: snapshot isolation — `GetMap` (and the lock-owning branch of
`GetMapWithTimeout`, which is the same code path) returns a deep copy at a
fresh address, and any later sequence of Map Store mutations (merges,
clears, resets), all of which write through the live `mapAddr` pointer,
leaves the snapshot's contents unchanged. -/
theorem getMap_snapshot_isolation (h : HeapState) (c : PointCloudT)
    (ms : List MapMutation) (hwf : h.mapAddr < h.next)
    (hc : h.heap h.mapAddr = some c) :
    (GetMapH h).1 = some h.next ∧
    (applyMutations (GetMapH h).2 ms).heap h.next = some c ∧
    GetMapWithTimeoutH h true = GetMapH h := by
  have hne : h.next ≠ h.mapAddr := (Nat.ne_of_lt hwf).symm
  refine ⟨?_, ?_, rfl⟩
  · simp [GetMapH, hc]
  · rw [applyMutations_heap_ne ms _ h.next (by simp [GetMapH, hc]; exact hne)]
    simp [GetMapH, hc, makeShared]

theorem getMap_snapshot_isolation_witness :
    (GetMapH sampleHeap).1 = some sampleHeap.next ∧
    (applyMutations (GetMapH sampleHeap).2
        [MapMutation.merge [⟨4, 5, 6⟩] 7]).heap sampleHeap.next = some sampleCloud ∧
    GetMapWithTimeoutH sampleHeap true = GetMapH sampleHeap :=
  getMap_snapshot_isolation sampleHeap sampleCloud [MapMutation.merge [⟨4, 5, 6⟩] 7]
    (by decide) rfl

/-- Claim C7: saving the map and loading it back from the same path
reproduces a cloud with the same point count and, at every index, point
coordinates within 1e-5 of the original (the modelled codec is exact, so
the difference is zero). -/
theorem saveMap_loadMap_roundtrip (s : PointCloudMap) (c : PointCloudT) (i : Nat)
    (h : s.pPointCloud_ = some c) :
    (SaveMap (LoadMap s (SaveMap s)).1).length = c.points.length ∧
    |((SaveMap (LoadMap s (SaveMap s)).1).getD i default).x
        - (c.points.getD i default).x| ≤ 1 / 100000 ∧
    |((SaveMap (LoadMap s (SaveMap s)).1).getD i default).y
        - (c.points.getD i default).y| ≤ 1 / 100000 ∧
    |((SaveMap (LoadMap s (SaveMap s)).1).getD i default).z
        - (c.points.getD i default).z| ≤ 1 / 100000 := by
  have key : SaveMap (LoadMap s (SaveMap s)).1 = c.points := by
    simp [SaveMap, LoadMap, h]
  rw [key]
  refine ⟨rfl, ?_, ?_, ?_⟩ <;> · rw [sub_self, abs_zero]; norm_num

theorem saveMap_loadMap_roundtrip_witness :
    (SaveMap (LoadMap sampleMapState (SaveMap sampleMapState)).1).length
        = sampleCloud.points.length ∧
    |((SaveMap (LoadMap sampleMapState (SaveMap sampleMapState)).1).getD 0 default).x
        - (sampleCloud.points.getD 0 default).x| ≤ 1 / 100000 ∧
    |((SaveMap (LoadMap sampleMapState (SaveMap sampleMapState)).1).getD 0 default).y
        - (sampleCloud.points.getD 0 default).y| ≤ 1 / 100000 ∧
    |((SaveMap (LoadMap sampleMapState (SaveMap sampleMapState)).1).getD 0 default).z
        - (sampleCloud.points.getD 0 default).z| ≤ 1 / 100000 :=
  saveMap_loadMap_roundtrip sampleMapState sampleCloud 0 rfl

end PLVS
